import Mathlib

set_option maxRecDepth 10000

/-!
Shallow embedding of `awswrangler/catalog/_add.py` (AWS Glue Catalog add
module): the batched partition-registration protocol `_add_partitions`, the
four public add-partitions operations (CSV, JSON, Parquet, ORC) and the
column appender `add_column`.  The remote Glue client is modelled as an
oracle function from requests to responses; each operation returns the
trace of issued requests together with its outcome (normal return or the
raised exception).  Helpers that live outside the analysed sources
(`_utils.chunkify`, the definition builders, `_check_column_type`,
`_update_table_definition`, `sanitize_table_name`) are modelled from the
specification, as their doc comments state.
-/

/-- Error detail of one reported error: an optional `ErrorCode` string
(a detail mapping without the `ErrorCode` key is `none`). -/
structure GlueErrorDetail where
  ErrorCode : Option String
deriving DecidableEq

/-- One entry of a response's `Errors` list: an optional `ErrorDetail`
mapping (an entry without the `ErrorDetail` key is `none`). -/
structure GlueError where
  ErrorDetail : Option GlueErrorDetail
deriving DecidableEq

/-- Response of `batch_create_partition`: an optional `Errors` list
(a response without the `Errors` key is `none`; `some []` is a present but
empty, hence falsy, list). -/
structure BatchResponse where
  Errors : Option (List GlueError)
deriving DecidableEq

/-- Modelled from the spec: the format-specific Definition Builders of
`awswrangler.catalog._definitions` are not among the analysed sources.
Per the spec each is a pure function from (location, values, format
options) to one structurally valid partition-input record carrying the
storage location and the partition values; the remaining format-specific
fields (SerDe parameters, compression, bucketing) are abstracted into a
format tag. -/
structure PartitionInput where
  Location : String
  Values : List String
  Format : String
deriving DecidableEq

/-- Modelled from the spec: `_csv_partition_definition`, the delimited-text
Definition Builder, producing one partition-input record for
`(location, values)`. -/
def _csv_partition_definition (location : String) (values : List String) :
    PartitionInput :=
  ⟨location, values, "csv"⟩

/-- Modelled from the spec: `_json_partition_definition`, the
line-delimited-JSON Definition Builder. -/
def _json_partition_definition (location : String) (values : List String) :
    PartitionInput :=
  ⟨location, values, "json"⟩

/-- Modelled from the spec: `_parquet_partition_definition`, the columnar
Parquet Definition Builder. -/
def _parquet_partition_definition (location : String) (values : List String) :
    PartitionInput :=
  ⟨location, values, "parquet"⟩

/-- Modelled from the spec: `_orc_partition_definition`, the columnar ORC
Definition Builder. -/
def _orc_partition_definition (location : String) (values : List String) :
    PartitionInput :=
  ⟨location, values, "orc"⟩

/-- Recursion worker for `chunkify`, structurally recursive on a fuel
bound on the list length so that it evaluates by kernel reduction; each
step peels one chunk of `max_length` records off the front. -/
def chunkify_fuel (max_length : Nat) : Nat → List α → List (List α)
  | _, [] => []
  | 0, _ :: _ => []
  | fuel + 1, x :: xs =>
    (x :: xs.take (max_length - 1)) ::
      chunkify_fuel max_length fuel (xs.drop (max_length - 1))

/-- Modelled from the spec: `_utils.chunkify(lst=inputs, max_length=100)`
is not among the analysed sources.  Per the spec it partitions the input
list into consecutive chunks of at most `max_length` records each (the
last chunk may be shorter), preserving chunk order and record order within
each chunk, and producing `ceil(N / max_length)` chunks. -/
def chunkify (max_length : Nat) (l : List α) : List (List α) :=
  chunkify_fuel max_length l.length l

/-- One `batch_create_partition` request as assembled by `_add_partitions`
(src line 36) through `_catalog_id`: the catalog id key is included only
when a catalog id was provided, modelled by the `Option` field. -/
structure BatchCreateRequest where
  CatalogId : Option String
  DatabaseName : String
  TableName : String
  PartitionInputList : List PartitionInput
deriving DecidableEq

/-- Outcome of a partition-registration call: normal return, or the raised
`exceptions.ServiceApiError`; the exception carries the raw `Errors` list
of the offending response, whose string rendering is the exception
message. -/
inductive ApiOutcome where
  | ok : ApiOutcome
  | serviceApiError (rawErrors : List GlueError) : ApiOutcome
deriving DecidableEq

/-- Error code carried by a reported error: the result of the two nested
key probes of src lines 40-41, `none` when the error has no `ErrorDetail`
entry or its detail has no `ErrorCode` entry. -/
def _error_code (error : GlueError) : Option String :=
  match error.ErrorDetail with
  | some detail => detail.ErrorCode
  | none => none

/-- One reported error is non-ignorable exactly when it carries an
`ErrorDetail` with an `ErrorCode` different from the sentinel
`"AlreadyExistsException"` (src lines 40-42); errors without this nested
structure fall through the key probes without raising. -/
def _non_ignorable (error : GlueError) : Bool :=
  match error.ErrorDetail with
  | some detail =>
    match detail.ErrorCode with
    | some code => code != "AlreadyExistsException"
    | none => false
  | none => false

/-- Raise condition of `_add_partitions` on one response (src lines
38-43): the `Errors` key is present, its list is non-empty, and some
reported error is non-ignorable. -/
def _raises (res : BatchResponse) : Bool :=
  match res.Errors with
  | some errs => !errs.isEmpty && errs.any _non_ignorable
  | none => false

/-- Per-chunk loop of `_add_partitions` (src lines 34-43): issue one
`batch_create_partition` request per chunk against the client oracle; on
the first response satisfying the raise condition, raise
`ServiceApiError` with that response's raw `Errors` list and issue no
further request.  Returns the trace of issued requests together with the
outcome. -/
def _add_partitions_loop (client : BatchCreateRequest → BatchResponse)
    (database table : String) (catalog_id : Option String) :
    List (List PartitionInput) → List BatchCreateRequest × ApiOutcome
  | [] => ([], ApiOutcome.ok)
  | chunk :: rest =>
    if _raises (client ⟨catalog_id, database, table, chunk⟩) then
      ([⟨catalog_id, database, table, chunk⟩],
        ApiOutcome.serviceApiError
          ((client ⟨catalog_id, database, table, chunk⟩).Errors.getD []))
    else
      ((⟨catalog_id, database, table, chunk⟩ : BatchCreateRequest) ::
          (_add_partitions_loop client database table catalog_id rest).1,
        (_add_partitions_loop client database table catalog_id rest).2)

/-- Shallow embedding of `_add_partitions` (src lines 25-43): chunk the
inputs into chunks of at most 100 records and run the per-chunk loop. -/
def _add_partitions (client : BatchCreateRequest → BatchResponse)
    (database table : String) (inputs : List PartitionInput)
    (catalog_id : Option String) : List BatchCreateRequest × ApiOutcome :=
  _add_partitions_loop client database table catalog_id (chunkify 100 inputs)

/-- Shallow embedding of `add_csv_partitions` (src lines 47-128): sanitize
the table name, build one CSV partition-input record per mapping entry (in
mapping order), and register them through `_add_partitions`.  The
location-to-values mapping is modelled as its entry list. -/
def add_csv_partitions (sanitize_table_name : String → String)
    (client : BatchCreateRequest → BatchResponse) (database table : String)
    (partitions_values : List (String × List String))
    (catalog_id : Option String) : List BatchCreateRequest × ApiOutcome :=
  _add_partitions client database (sanitize_table_name table)
    (partitions_values.map fun kv => _csv_partition_definition kv.1 kv.2)
    catalog_id

/-- Shallow embedding of `add_json_partitions` (src lines 132-209). -/
def add_json_partitions (sanitize_table_name : String → String)
    (client : BatchCreateRequest → BatchResponse) (database table : String)
    (partitions_values : List (String × List String))
    (catalog_id : Option String) : List BatchCreateRequest × ApiOutcome :=
  _add_partitions client database (sanitize_table_name table)
    (partitions_values.map fun kv => _json_partition_definition kv.1 kv.2)
    catalog_id

/-- Shallow embedding of `add_parquet_partitions` (src lines 213-282):
unlike the CSV and JSON variants it guards the whole registration behind
the truthiness of the mapping (src line 268). -/
def add_parquet_partitions (sanitize_table_name : String → String)
    (client : BatchCreateRequest → BatchResponse) (database table : String)
    (partitions_values : List (String × List String))
    (catalog_id : Option String) : List BatchCreateRequest × ApiOutcome :=
  if partitions_values.isEmpty then ([], ApiOutcome.ok)
  else
    _add_partitions client database (sanitize_table_name table)
      (partitions_values.map fun kv => _parquet_partition_definition kv.1 kv.2)
      catalog_id

/-- Shallow embedding of `add_orc_partitions` (src lines 286-355), guarded
like the Parquet variant (src line 341). -/
def add_orc_partitions (sanitize_table_name : String → String)
    (client : BatchCreateRequest → BatchResponse) (database table : String)
    (partitions_values : List (String × List String))
    (catalog_id : Option String) : List BatchCreateRequest × ApiOutcome :=
  if partitions_values.isEmpty then ([], ApiOutcome.ok)
  else
    _add_partitions client database (sanitize_table_name table)
      (partitions_values.map fun kv => _orc_partition_definition kv.1 kv.2)
      catalog_id

/-- One column descriptor of a table's storage schema: name, type and
optional comment (the source's `Type` key is rendered `Type_`, `Type`
being reserved in Lean). -/
structure TableColumn where
  Name : String
  Type_ : String
  Comment : Option String
deriving DecidableEq

/-- Storage descriptor of a table, as far as `add_column` inspects it: the
ordered column list. -/
structure StorageDescriptor where
  Columns : List TableColumn
deriving DecidableEq

/-- Fetched table definition returned by `get_table`: the table's name,
its storage descriptor, and opaque server-managed fields that an update
must not send back. -/
structure GetTableResponse where
  Name : String
  StorageDescriptor : StorageDescriptor
  ServerManaged : List (String × String)
deriving DecidableEq

/-- Table-input structure accepted by `update_table`. -/
structure TableInput where
  Name : String
  StorageDescriptor : StorageDescriptor
deriving DecidableEq

/-- Modelled from the spec: `_update_table_definition` of
`awswrangler.catalog._definitions` is not among the analysed sources.  Per
the spec it derives an updatable table-input structure from the fetched
definition, stripping the server-managed fields not accepted on write and
preserving the table's name and existing ordered column list. -/
def _update_table_definition (table_res : GetTableResponse) : TableInput :=
  ⟨table_res.Name, table_res.StorageDescriptor⟩

/-- The `get_table` request issued by `add_column` (src line 400), built
through `_catalog_id` like the batch request. -/
structure GetTableRequest where
  CatalogId : Option String
  DatabaseName : String
  Name : String
deriving DecidableEq

/-- The `update_table` request issued by `add_column` (src lines 405-407). -/
structure UpdateTableRequest where
  CatalogId : Option String
  DatabaseName : String
  TableInput : TableInput
deriving DecidableEq

/-- Response of `update_table`: an optional `Errors` list, probed by
`add_column` with the same nested key checks as the batch response. -/
structure UpdateTableResponse where
  Errors : Option (List GlueError)
deriving DecidableEq

/-- One remote catalog call issued by `add_column`. -/
inductive CatalogApiCall where
  | getTable (req : GetTableRequest) : CatalogApiCall
  | updateTable (req : UpdateTableRequest) : CatalogApiCall
deriving DecidableEq

/-- Outcome of `add_column`: normal return, the local validation error
(`InvalidArgumentValue`) raised for an unsupported column type, or the
raised `ServiceApiError` carrying the update response's raw `Errors`
list. -/
inductive ColumnOutcome where
  | ok : ColumnOutcome
  | invalidArgumentValue (column_type : String) : ColumnOutcome
  | serviceApiError (rawErrors : List GlueError) : ColumnOutcome
deriving DecidableEq

/-- Modelled from the spec: `_check_column_type` of
`awswrangler.catalog._definitions` is not among the analysed sources.  Per
the spec it validates the proposed column type against the catalog's
supported type set — abstracted here as a parameter — returning `true` for
a supported type and rejecting an unsupported one with a local validation
error before any remote call (the rejection is rendered as the
`invalidArgumentValue` outcome of `add_column`). -/
def _check_column_type (supported_types : List String) (column_type : String) :
    Bool :=
  supported_types.contains column_type

/-- One reported error of the update response triggers the raise of
`add_column` exactly when it carries an `ErrorDetail` with an `ErrorCode`
entry, whatever the code — there is no already-exists exemption here (src
lines 408-412). -/
def _has_error_code (error : GlueError) : Bool :=
  match error.ErrorDetail with
  | some detail => detail.ErrorCode.isSome
  | none => false

/-- Raise condition of `add_column` on the update response (src lines
408-412): the `Errors` key is present, its list is non-empty, and some
reported error carries an `ErrorCode`. -/
def _column_raises (res : UpdateTableResponse) : Bool :=
  match res.Errors with
  | some errs => !errs.isEmpty && errs.any _has_error_code
  | none => false

/-- Shallow embedding of `add_column` (src lines 358-412): validate the
column type, fetch the table, derive the updatable table input, append the
new column descriptor to its column list, submit the update, and raise
`ServiceApiError` when the update response reports an error carrying an
`ErrorCode`.  Returns the trace of issued remote calls together with the
outcome; an unsupported column type yields the local validation error with
an empty trace. -/
def add_column (supported_types : List String)
    (get_table : GetTableRequest → GetTableResponse)
    (update_table : UpdateTableRequest → UpdateTableResponse)
    (database table column_name column_type : String)
    (column_comment : Option String) (catalog_id : Option String) :
    List CatalogApiCall × ColumnOutcome :=
  if _check_column_type supported_types column_type then
    let get_req : GetTableRequest := ⟨catalog_id, database, table⟩
    let table_input : TableInput :=
      ⟨(_update_table_definition (get_table get_req)).Name,
        ⟨(_update_table_definition (get_table get_req)).StorageDescriptor.Columns ++
          [⟨column_name, column_type, column_comment⟩]⟩⟩
    let upd_req : UpdateTableRequest := ⟨catalog_id, database, table_input⟩
    ([CatalogApiCall.getTable get_req, CatalogApiCall.updateTable upd_req],
      if _column_raises (update_table upd_req) then
        ColumnOutcome.serviceApiError ((update_table upd_req).Errors.getD [])
      else ColumnOutcome.ok)
  else
    ([], ColumnOutcome.invalidArgumentValue column_type)


/-- The fuel argument of `chunkify_fuel` is irrelevant once it bounds the
list length. -/
theorem chunkify_fuel_irrel (m : Nat) :
    ∀ (fuel1 fuel2 : Nat) (l : List α), l.length ≤ fuel1 → l.length ≤ fuel2 →
      chunkify_fuel m fuel1 l = chunkify_fuel m fuel2 l := by
  intro fuel1
  induction fuel1 with
  | zero =>
    intro fuel2 l h1 h2
    cases l with
    | nil => cases fuel2 <;> rfl
    | cons x xs => simp at h1
  | succ f1 ih =>
    intro fuel2 l h1 h2
    cases l with
    | nil => cases fuel2 <;> rfl
    | cons x xs =>
      cases fuel2 with
      | zero => simp at h2
      | succ f2 =>
        simp only [chunkify_fuel]
        congr 1
        apply ih
        · simp only [List.length_cons] at h1
          simp only [List.length_drop]
          omega
        · simp only [List.length_cons] at h2
          simp only [List.length_drop]
          omega

/-- Unfolding of `chunkify` on the empty list. -/
theorem chunkify_nil (m : Nat) : chunkify m ([] : List α) = [] := rfl

/-- Unfolding of `chunkify` on a non-empty list. -/
theorem chunkify_cons (m : Nat) (x : α) (xs : List α) :
    chunkify m (x :: xs) =
      (x :: xs.take (m - 1)) :: chunkify m (xs.drop (m - 1)) := by
  have h : chunkify m (x :: xs) =
      (x :: xs.take (m - 1)) :: chunkify_fuel m xs.length (xs.drop (m - 1)) := rfl
  rw [h]
  unfold chunkify
  congr 1
  apply chunkify_fuel_irrel
  · simp only [List.length_drop]
    omega
  · exact le_refl _

/-- Induction principle following the chunk structure: to prove a property
of every list, prove it of the empty list and of `x :: xs` assuming it of
`xs.drop (m - 1)`. -/
theorem chunkify_induction (m : Nat) (motive : List α → Prop)
    (h1 : motive []) (h2 : ∀ x xs, motive (xs.drop (m - 1)) → motive (x :: xs))
    (l : List α) : motive l := by
  have key : ∀ (n : Nat) (l : List α), l.length ≤ n → motive l := by
    intro n
    induction n with
    | zero =>
      intro l hl
      cases l with
      | nil => exact h1
      | cons x xs => simp at hl
    | succ n ih =>
      intro l hl
      cases l with
      | nil => exact h1
      | cons x xs =>
        apply h2
        apply ih
        simp only [List.length_cons] at hl
        simp only [List.length_drop]
        omega
  exact key l.length l (le_refl _)

/-- Concatenating the chunks in order restores the original list. -/
theorem chunkify_flatten (m : Nat) (l : List α) : (chunkify m l).flatten = l := by
  induction l using chunkify_induction m with
  | h1 => rfl
  | h2 x xs ih =>
    rw [chunkify_cons, List.flatten_cons, ih]
    simp [List.take_append_drop]

/-- The number of chunks is the ceiling of the length divided by the
maximal chunk length. -/
theorem chunkify_length (m : Nat) (hm : 0 < m) (l : List α) :
    (chunkify m l).length = (l.length + (m - 1)) / m := by
  induction l using chunkify_induction m with
  | h1 =>
    rw [chunkify_nil]
    simp only [List.length_nil, Nat.zero_add]
    exact (Nat.div_eq_of_lt (by omega)).symm
  | h2 x xs ih =>
    rw [chunkify_cons]
    simp only [List.length_cons, List.length_drop] at ih ⊢
    rw [ih]
    rcases le_or_lt (m - 1) xs.length with h | h
    · have hx1 : xs.length - (m - 1) + (m - 1) = xs.length := by omega
      have hx2 : xs.length + 1 + (m - 1) = xs.length + m := by omega
      rw [hx1, hx2, Nat.add_div_right _ hm]
    · have hx1 : xs.length - (m - 1) + (m - 1) = m - 1 := by omega
      have hx2 : xs.length + 1 + (m - 1) = xs.length + m := by omega
      rw [hx1, hx2, Nat.add_div_right _ hm, Nat.div_eq_of_lt (by omega),
        Nat.div_eq_of_lt (by omega)]

/-- Every chunk holds at most `m` records. -/
theorem chunkify_length_le (m : Nat) (hm : 0 < m) (l : List α) :
    ∀ c ∈ chunkify m l, c.length ≤ m := by
  induction l using chunkify_induction m with
  | h1 => simp [chunkify_nil]
  | h2 x xs ih =>
    rw [chunkify_cons]
    intro c hc
    rcases List.mem_cons.mp hc with rfl | hc
    · simp only [List.length_cons, List.length_take]
      omega
    · exact ih c hc

/-- The chunks of a list are empty exactly when the list is. -/
theorem chunkify_eq_nil_iff (m : Nat) (l : List α) :
    chunkify m l = [] ↔ l = [] := by
  cases l with
  | nil => simp [chunkify_nil]
  | cons x xs => rw [chunkify_cons]; simp

/-- Every chunk except possibly the last holds exactly `m` records. -/
theorem chunkify_length_eq (m : Nat) (hm : 0 < m) (l : List α) (i : Nat)
    (hi : i + 1 < (chunkify m l).length) :
    (((chunkify m l)[i]?).getD []).length = m := by
  induction l using chunkify_induction m generalizing i with
  | h1 => rw [chunkify_nil] at hi; simp at hi
  | h2 x xs ih =>
    rw [chunkify_cons] at hi ⊢
    cases i with
    | zero =>
      have hrest : chunkify m (xs.drop (m - 1)) ≠ [] := by
        intro hnil
        rw [hnil] at hi
        simp at hi
      have hdrop : xs.drop (m - 1) ≠ [] := by
        intro hnil
        exact hrest (by rw [hnil, chunkify_nil])
      have hlen : m - 1 < xs.length := by
        by_contra hle
        exact hdrop (List.drop_eq_nil_of_le (by omega))
      simp only [List.getElem?_cons_zero, Option.getD_some, List.length_cons,
        List.length_take]
      omega
    | succ j =>
      simp only [List.length_cons] at hi
      rw [List.getElem?_cons_succ]
      exact ih j (by omega)

/-- Unfolding of the per-chunk loop on the empty chunk list. -/
theorem _add_partitions_loop_nil (client : BatchCreateRequest → BatchResponse)
    (db tbl : String) (cid : Option String) :
    _add_partitions_loop client db tbl cid [] = ([], ApiOutcome.ok) := rfl

/-- Unfolding of the per-chunk loop on a non-empty chunk list. -/
theorem _add_partitions_loop_cons (client : BatchCreateRequest → BatchResponse)
    (db tbl : String) (cid : Option String) (c : List PartitionInput)
    (cs : List (List PartitionInput)) :
    _add_partitions_loop client db tbl cid (c :: cs) =
      if _raises (client ⟨cid, db, tbl, c⟩) then
        ([⟨cid, db, tbl, c⟩],
          ApiOutcome.serviceApiError
            ((client ⟨cid, db, tbl, c⟩).Errors.getD []))
      else
        ((⟨cid, db, tbl, c⟩ : BatchCreateRequest) ::
            (_add_partitions_loop client db tbl cid cs).1,
          (_add_partitions_loop client db tbl cid cs).2) := rfl

/-- When no chunk's response satisfies the raise condition, the loop issues
one request per chunk, in chunk order, and returns normally. -/
theorem _add_partitions_loop_ok (client : BatchCreateRequest → BatchResponse)
    (db tbl : String) (cid : Option String)
    (chunks : List (List PartitionInput))
    (h : ∀ chunk ∈ chunks, _raises (client ⟨cid, db, tbl, chunk⟩) = false) :
    _add_partitions_loop client db tbl cid chunks =
      (chunks.map fun chunk => (⟨cid, db, tbl, chunk⟩ : BatchCreateRequest),
        ApiOutcome.ok) := by
  induction chunks with
  | nil => rfl
  | cons c cs ih =>
    have hc := h c (List.mem_cons_self c cs)
    have hrest : ∀ chunk ∈ cs, _raises (client ⟨cid, db, tbl, chunk⟩) = false :=
      fun chunk hm => h chunk (List.mem_cons_of_mem c hm)
    rw [_add_partitions_loop_cons, if_neg (by rw [hc]; exact Bool.false_ne_true),
      ih hrest, List.map_cons]

/-- When the chunk at position `i` is the first whose response satisfies
the raise condition, the loop issues exactly the requests for chunks `0`
through `i` and raises with that response's raw error list. -/
theorem _add_partitions_loop_first_raise
    (client : BatchCreateRequest → BatchResponse) (db tbl : String)
    (cid : Option String) (chunks : List (List PartitionInput)) (i : Nat)
    (ci : List PartitionInput) (hget : chunks[i]? = some ci)
    (hfail : _raises (client ⟨cid, db, tbl, ci⟩) = true)
    (hok : ∀ chunk ∈ chunks.take i,
      _raises (client ⟨cid, db, tbl, chunk⟩) = false) :
    _add_partitions_loop client db tbl cid chunks =
      ((chunks.map fun chunk =>
          (⟨cid, db, tbl, chunk⟩ : BatchCreateRequest)).take (i + 1),
        ApiOutcome.serviceApiError
          ((client ⟨cid, db, tbl, ci⟩).Errors.getD [])) := by
  induction chunks generalizing i with
  | nil => simp at hget
  | cons c cs ih =>
    cases i with
    | zero =>
      rw [List.getElem?_cons_zero] at hget
      injection hget with hc
      subst hc
      rw [_add_partitions_loop_cons, if_pos hfail, List.map_cons,
        List.take_succ_cons, List.take_zero]
    | succ j =>
      rw [List.getElem?_cons_succ] at hget
      have hc : _raises (client ⟨cid, db, tbl, c⟩) = false :=
        hok c (by rw [List.take_succ_cons]; exact List.mem_cons_self c _)
      have hok2 : ∀ chunk ∈ cs.take j,
          _raises (client ⟨cid, db, tbl, chunk⟩) = false := by
        intro chunk hm
        exact hok chunk
          (by rw [List.take_succ_cons]; exact List.mem_cons_of_mem c hm)
      rw [_add_partitions_loop_cons,
        if_neg (by rw [hc]; exact Bool.false_ne_true), ih j hget hok2,
        List.map_cons, List.take_succ_cons]

/-- Every request issued by the loop carries the table name it was given. -/
theorem _add_partitions_loop_mem_table
    (client : BatchCreateRequest → BatchResponse) (db tbl : String)
    (cid : Option String) (chunks : List (List PartitionInput)) :
    ∀ req ∈ (_add_partitions_loop client db tbl cid chunks).1,
      req.TableName = tbl := by
  induction chunks with
  | nil => intro req hreq; rw [_add_partitions_loop_nil] at hreq; simp at hreq
  | cons c cs ih =>
    intro req hreq
    rw [_add_partitions_loop_cons] at hreq
    by_cases h : _raises (client ⟨cid, db, tbl, c⟩) = true
    · rw [if_pos h] at hreq
      have hr : req = ⟨cid, db, tbl, c⟩ := List.mem_singleton.mp hreq
      rw [hr]
    · rw [if_neg h] at hreq
      rcases List.mem_cons.mp hreq with hr | hr
      · rw [hr]
      · exact ih req hr

/-- If a request issued by the loop got a response satisfying the raise
condition, the loop's outcome is the `ServiceApiError` carrying that
response's raw error list. -/
theorem _add_partitions_loop_mem_raise
    (client : BatchCreateRequest → BatchResponse) (db tbl : String)
    (cid : Option String) (chunks : List (List PartitionInput))
    (req : BatchCreateRequest)
    (hmem : req ∈ (_add_partitions_loop client db tbl cid chunks).1)
    (hr : _raises (client req) = true) :
    (_add_partitions_loop client db tbl cid chunks).2 =
      ApiOutcome.serviceApiError ((client req).Errors.getD []) := by
  induction chunks with
  | nil => rw [_add_partitions_loop_nil] at hmem; simp at hmem
  | cons c cs ih =>
    rw [_add_partitions_loop_cons] at hmem ⊢
    by_cases h : _raises (client ⟨cid, db, tbl, c⟩) = true
    · rw [if_pos h] at hmem ⊢
      have he : req = ⟨cid, db, tbl, c⟩ := List.mem_singleton.mp hmem
      rw [he]
    · rw [if_neg h] at hmem ⊢
      rcases List.mem_cons.mp hmem with he | he
      · rw [he] at hr; exact absurd hr h
      · exact ih he

/-- An error whose probed code is the sentinel is ignorable. -/
theorem _non_ignorable_eq_false_of_sentinel (e : GlueError)
    (h : _error_code e = some "AlreadyExistsException") :
    _non_ignorable e = false := by
  cases e with
  | mk d =>
    cases d with
    | none => rfl
    | some detail =>
      cases detail with
      | mk c =>
        cases c with
        | none => rfl
        | some code =>
          simp only [_error_code] at h
          injection h with h
          simp [_non_ignorable, h]

/-- An error without a recognizable code structure is ignorable. -/
theorem _non_ignorable_eq_false_of_none (e : GlueError)
    (h : _error_code e = none) : _non_ignorable e = false := by
  cases e with
  | mk d =>
    cases d with
    | none => rfl
    | some detail =>
      cases detail with
      | mk c =>
        cases c with
        | none => rfl
        | some code => simp [_error_code] at h

/-- An error carrying a non-sentinel code is non-ignorable. -/
theorem _non_ignorable_eq_true_of_code (e : GlueError) (c : String)
    (hc : _error_code e = some c) (hne : c ≠ "AlreadyExistsException") :
    _non_ignorable e = true := by
  cases e with
  | mk d =>
    cases d with
    | none => simp [_error_code] at hc
    | some detail =>
      cases detail with
      | mk co =>
        cases co with
        | none => simp [_error_code] at hc
        | some code =>
          simp only [_error_code] at hc
          injection hc with hc
          subst hc
          simp [_non_ignorable, bne_iff_ne, hne]

/-- A response all of whose reported errors are ignorable does not satisfy
the raise condition. -/
theorem _raises_eq_false_of_all (res : BatchResponse)
    (h : ∀ e ∈ res.Errors.getD [], _non_ignorable e = false) :
    _raises res = false := by
  unfold _raises
  cases hE : res.Errors with
  | none => rfl
  | some errs =>
    rw [hE] at h
    simp only [Option.getD_some] at h
    have hany : errs.any _non_ignorable = false := by
      rw [List.any_eq_false]
      intro x hx
      simp [h x hx]
    simp [hany]

/-- A response with a non-ignorable reported error satisfies the raise
condition. -/
theorem _raises_eq_true_of_mem (res : BatchResponse) (e : GlueError)
    (he : e ∈ res.Errors.getD []) (hni : _non_ignorable e = true) :
    _raises res = true := by
  unfold _raises
  cases hE : res.Errors with
  | none => rw [hE] at he; simp at he
  | some errs =>
    rw [hE] at he
    simp only [Option.getD_some] at he
    have h1 : errs.isEmpty = false := by
      cases errs with
      | nil => simp at he
      | cons a l => rfl
    have h2 : errs.any _non_ignorable = true := List.any_eq_true.mpr ⟨e, he, hni⟩
    show (!errs.isEmpty && errs.any _non_ignorable) = true
    rw [h1, h2]
    rfl

/-- C1: for every list of partition inputs passed to `_add_partitions`,
when every chunk's response reports only errors carrying the error code
`"AlreadyExistsException"`, the call does not raise; and when the response
to an issued request reports an error carrying any other error code, the
call raises `ServiceApiError` carrying that response's full raw error
list. -/
theorem c1_already_exists_tolerance
    (client : BatchCreateRequest → BatchResponse) (db tbl : String)
    (inputs : List PartitionInput) (cid : Option String) :
    ((∀ chunk ∈ chunkify 100 inputs,
        ∀ e ∈ (client ⟨cid, db, tbl, chunk⟩).Errors.getD [],
          _error_code e = some "AlreadyExistsException") →
      (_add_partitions client db tbl inputs cid).2 = ApiOutcome.ok)
    ∧ (∀ req ∈ (_add_partitions client db tbl inputs cid).1,
        (∃ e ∈ (client req).Errors.getD [],
          ∃ c, _error_code e = some c ∧ c ≠ "AlreadyExistsException") →
        (_add_partitions client db tbl inputs cid).2 =
          ApiOutcome.serviceApiError ((client req).Errors.getD [])) := by
  constructor
  · intro h
    unfold _add_partitions
    rw [_add_partitions_loop_ok client db tbl cid (chunkify 100 inputs)
      (fun chunk hc => _raises_eq_false_of_all _ fun e he =>
        _non_ignorable_eq_false_of_sentinel e (h chunk hc e he))]
  · intro req hreq hex
    obtain ⟨e, he, c, hc, hne⟩ := hex
    unfold _add_partitions at hreq ⊢
    exact _add_partitions_loop_mem_raise client db tbl cid _ req hreq
      (_raises_eq_true_of_mem _ e he (_non_ignorable_eq_true_of_code e c hc hne))

/-- One concrete partition input used by the concrete evaluations below. -/
def wP : PartitionInput := ⟨"s3://bucket/prefix/y=2020/m=10/", ["2020", "10"], "parquet"⟩

/-- A reported error carrying the sentinel code. -/
def wErrAE : GlueError := ⟨some ⟨some "AlreadyExistsException"⟩⟩

/-- A reported error carrying a non-sentinel code. -/
def wErrOther : GlueError := ⟨some ⟨some "EntityNotFoundException"⟩⟩

/-- A client answering every request with one already-exists error. -/
def wClientAE : BatchCreateRequest → BatchResponse := fun _ => ⟨some [wErrAE]⟩

/-- A client answering every request with an already-exists error followed
by a non-ignorable one. -/
def wClientBad : BatchCreateRequest → BatchResponse :=
  fun _ => ⟨some [wErrAE, wErrOther]⟩

theorem c1_already_exists_tolerance_witness :
    (_add_partitions wClientAE "db" "tbl" [wP] none).2 = ApiOutcome.ok
    ∧ (_add_partitions wClientBad "db" "tbl" [wP] none).2 =
        ApiOutcome.serviceApiError [wErrAE, wErrOther] :=
  ⟨(c1_already_exists_tolerance wClientAE "db" "tbl" [wP] none).1 (by decide),
    (c1_already_exists_tolerance wClientBad "db" "tbl" [wP] none).2
      ⟨none, "db", "tbl", [wP]⟩ (by decide)
      ⟨wErrOther, by decide, "EntityNotFoundException", rfl, by decide⟩⟩

/-- A reported error without an `ErrorDetail` entry. -/
def wErrNoDetail : GlueError := ⟨none⟩

/-- A reported error whose `ErrorDetail` lacks an `ErrorCode` entry. -/
def wErrNoCode : GlueError := ⟨some ⟨none⟩⟩

/-- A client answering every request with a non-empty error list whose
entries all lack a recognizable error-code structure. -/
def wClientNoStructure : BatchCreateRequest → BatchResponse :=
  fun _ => ⟨some [wErrNoDetail, wErrNoCode]⟩

/-- C2 counterexample: a response whose non-empty error list consists of
one error without an `ErrorDetail` entry and one whose detail lacks an
`ErrorCode` does not make `_add_partitions` raise — the call issues its
request, receives that response and returns normally, contrary to the
claim that the batch call is then considered failed. -/
theorem c2_unrecognizable_counterexample :
    (wClientNoStructure ⟨none, "db", "tbl", [wP]⟩).Errors =
      some [wErrNoDetail, wErrNoCode]
    ∧ (_add_partitions wClientNoStructure "db" "tbl" [wP] none).1 =
        [⟨none, "db", "tbl", [wP]⟩]
    ∧ (_add_partitions wClientNoStructure "db" "tbl" [wP] none).2 =
        ApiOutcome.ok :=
  ⟨rfl, rfl, rfl⟩

/-- C2 amended: reported errors lacking a recognizable error-code
structure (no `ErrorDetail` entry, or an `ErrorDetail` without an
`ErrorCode`) are skipped by the nested key probes rather than treated as
failures: when every reported error of every chunk's response lacks a
recognizable code, `_add_partitions` returns normally even though the
error lists are non-empty. -/
theorem c2_unrecognizable_skipped
    (client : BatchCreateRequest → BatchResponse) (db tbl : String)
    (inputs : List PartitionInput) (cid : Option String)
    (h : ∀ chunk ∈ chunkify 100 inputs,
      ∀ e ∈ (client ⟨cid, db, tbl, chunk⟩).Errors.getD [],
        _error_code e = none) :
    (_add_partitions client db tbl inputs cid).2 = ApiOutcome.ok := by
  unfold _add_partitions
  rw [_add_partitions_loop_ok client db tbl cid (chunkify 100 inputs)
    (fun chunk hc => _raises_eq_false_of_all _ fun e he =>
      _non_ignorable_eq_false_of_none e (h chunk hc e he))]

theorem c2_unrecognizable_skipped_witness :
    (_add_partitions wClientNoStructure "db" "tbl" [wP] none).2 =
      ApiOutcome.ok :=
  c2_unrecognizable_skipped wClientNoStructure "db" "tbl" [wP] none (by decide)

/-- C3: `_add_partitions` splits its `N` inputs into `ceil(N/100)`
consecutive chunks of at most 100 records each, only the last chunk
possibly shorter, whose concatenation in order is exactly the input list;
and, absent a response satisfying the raise condition, it issues exactly
one bulk-create request per chunk, in chunk order. -/
theorem c3_chunking (client : BatchCreateRequest → BatchResponse)
    (db tbl : String) (inputs : List PartitionInput) (cid : Option String)
    (h : ∀ chunk ∈ chunkify 100 inputs,
      _raises (client ⟨cid, db, tbl, chunk⟩) = false) :
    (chunkify 100 inputs).length = (inputs.length + 99) / 100
    ∧ (∀ chunk ∈ chunkify 100 inputs, chunk.length ≤ 100)
    ∧ (chunkify 100 inputs).flatten = inputs
    ∧ (∀ i, i + 1 < (chunkify 100 inputs).length →
        (((chunkify 100 inputs)[i]?).getD []).length = 100)
    ∧ (_add_partitions client db tbl inputs cid).1 =
        ((chunkify 100 inputs).map fun chunk =>
          (⟨cid, db, tbl, chunk⟩ : BatchCreateRequest)) := by
  refine ⟨chunkify_length 100 (by omega) inputs,
    chunkify_length_le 100 (by omega) inputs,
    chunkify_flatten 100 inputs,
    fun i hi => chunkify_length_eq 100 (by omega) inputs i hi, ?_⟩
  unfold _add_partitions
  rw [_add_partitions_loop_ok client db tbl cid (chunkify 100 inputs) h]

/-- A client whose responses never carry an `Errors` key. -/
def wClientNoErrors : BatchCreateRequest → BatchResponse := fun _ => ⟨none⟩

/-- A list of 201 distinct partition inputs, chunked as 100 + 100 + 1. -/
def wInputs201 : List PartitionInput :=
  (List.range 201).map fun n => ⟨toString n, [], "parquet"⟩

theorem c3_chunking_witness :
    (chunkify 100 wInputs201).length = (wInputs201.length + 99) / 100
    ∧ (∀ chunk ∈ chunkify 100 wInputs201, chunk.length ≤ 100)
    ∧ (chunkify 100 wInputs201).flatten = wInputs201
    ∧ (∀ i, i + 1 < (chunkify 100 wInputs201).length →
        (((chunkify 100 wInputs201)[i]?).getD []).length = 100)
    ∧ (_add_partitions wClientNoErrors "db" "tbl" wInputs201 none).1 =
        ((chunkify 100 wInputs201).map fun chunk =>
          (⟨none, "db", "tbl", chunk⟩ : BatchCreateRequest)) :=
  c3_chunking wClientNoErrors "db" "tbl" wInputs201 none
    (fun _ _ => rfl)

/-- C5: each of the four public add-partitions operations, called with an
empty location-to-values mapping, issues no bulk-create request and
returns normally. -/
theorem c5_empty_mapping (sanitize_table_name : String → String)
    (client : BatchCreateRequest → BatchResponse) (db tbl : String)
    (cid : Option String) :
    add_csv_partitions sanitize_table_name client db tbl [] cid =
      ([], ApiOutcome.ok)
    ∧ add_json_partitions sanitize_table_name client db tbl [] cid =
        ([], ApiOutcome.ok)
    ∧ add_parquet_partitions sanitize_table_name client db tbl [] cid =
        ([], ApiOutcome.ok)
    ∧ add_orc_partitions sanitize_table_name client db tbl [] cid =
        ([], ApiOutcome.ok) :=
  ⟨rfl, rfl, rfl, rfl⟩

/-- C4: once the chunk at position `i` is the first whose response carries
a non-ignorable error, `_add_partitions` raises `ServiceApiError` with
that response's full raw error list, the issued requests are exactly those
for chunks `0` through `i` — none for any remaining chunk — and the
requests already issued for the earlier chunks remain in the trace (no
rollback). -/
theorem c4_fail_fast (client : BatchCreateRequest → BatchResponse)
    (db tbl : String) (inputs : List PartitionInput) (cid : Option String)
    (i : Nat) (ci : List PartitionInput)
    (hget : (chunkify 100 inputs)[i]? = some ci)
    (hfail : _raises (client ⟨cid, db, tbl, ci⟩) = true)
    (hok : ∀ chunk ∈ (chunkify 100 inputs).take i,
      _raises (client ⟨cid, db, tbl, chunk⟩) = false) :
    _add_partitions client db tbl inputs cid =
      (((chunkify 100 inputs).map fun chunk =>
          (⟨cid, db, tbl, chunk⟩ : BatchCreateRequest)).take (i + 1),
        ApiOutcome.serviceApiError
          ((client ⟨cid, db, tbl, ci⟩).Errors.getD [])) := by
  unfold _add_partitions
  exact _add_partitions_loop_first_raise client db tbl cid
    (chunkify 100 inputs) i ci hget hfail hok

/-- The second chunk of `wInputs201`, records 100 through 199. -/
def wChunk1 : List PartitionInput :=
  (List.range' 100 100).map fun n => ⟨toString n, [], "parquet"⟩

/-- A client failing exactly the requests whose first record is record
number 100 — that is, the second chunk of `wInputs201` — with a
non-ignorable error, and answering every other request cleanly. -/
def wClientFailSecond : BatchCreateRequest → BatchResponse := fun req =>
  if req.PartitionInputList.headD ⟨"", [], ""⟩ =
      (⟨toString 100, [], "parquet"⟩ : PartitionInput) then
    ⟨some [wErrOther]⟩
  else ⟨none⟩

theorem c4_fail_fast_witness :
    (chunkify 100 wInputs201)[1]? = some wChunk1
    ∧ _raises (wClientFailSecond ⟨none, "db", "tbl", wChunk1⟩) = true
    ∧ _add_partitions wClientFailSecond "db" "tbl" wInputs201 none =
        (((chunkify 100 wInputs201).map fun chunk =>
            (⟨none, "db", "tbl", chunk⟩ : BatchCreateRequest)).take 2,
          ApiOutcome.serviceApiError [wErrOther]) :=
  ⟨by decide, by decide,
    c4_fail_fast wClientFailSecond "db" "tbl" wInputs201 none 1 wChunk1
      (by decide) (by decide) (by decide)⟩

/-- A non-empty list of at most `m` records forms a single chunk. -/
theorem chunkify_eq_singleton (m : Nat) (l : List α) (hne : l ≠ [])
    (hle : l.length ≤ m) : chunkify m l = [l] := by
  cases l with
  | nil => exact absurd rfl hne
  | cons x xs =>
    rw [chunkify_cons]
    simp only [List.length_cons] at hle
    rw [List.take_of_length_le (by omega), List.drop_eq_nil_of_le (by omega),
      chunkify_nil]

/-- On a single chunk the loop issues exactly that chunk's request,
whatever the response. -/
theorem _add_partitions_loop_single
    (client : BatchCreateRequest → BatchResponse) (db tbl : String)
    (cid : Option String) (c : List PartitionInput) :
    (_add_partitions_loop client db tbl cid [c]).1 = [⟨cid, db, tbl, c⟩] := by
  rw [_add_partitions_loop_cons]
  by_cases h : _raises (client ⟨cid, db, tbl, c⟩) = true
  · rw [if_pos h]
  · rw [if_neg h, _add_partitions_loop_nil]

/-- With a non-empty input list of at most 100 records, `_add_partitions`
issues exactly one request carrying the whole input list. -/
theorem _add_partitions_single_trace
    (client : BatchCreateRequest → BatchResponse) (db tbl : String)
    (inputs : List PartitionInput) (cid : Option String) (hne : inputs ≠ [])
    (hle : inputs.length ≤ 100) :
    (_add_partitions client db tbl inputs cid).1 = [⟨cid, db, tbl, inputs⟩] := by
  unfold _add_partitions
  rw [chunkify_eq_singleton 100 inputs hne hle, _add_partitions_loop_single]

/-- Records built one per mapping entry carry the entry's key as their
storage location. -/
theorem _map_location (fmt : String) (pv : List (String × List String)) :
    ((pv.map fun kv => (⟨kv.1, kv.2, fmt⟩ : PartitionInput)).map
      PartitionInput.Location) = pv.map Prod.fst := by
  rw [List.map_map]
  rfl

/-- With a non-empty mapping of at most 100 entries, registering the
per-entry records issues exactly one request carrying all of them. -/
theorem _add_partitions_map_single
    (client : BatchCreateRequest → BatchResponse) (db tbl : String)
    (pv : List (String × List String)) (cid : Option String)
    (builder : String → List String → PartitionInput) (hne : pv ≠ [])
    (hle : pv.length ≤ 100) :
    (_add_partitions client db tbl (pv.map fun kv => builder kv.1 kv.2) cid).1 =
      [⟨cid, db, tbl, pv.map fun kv => builder kv.1 kv.2⟩] := by
  apply _add_partitions_single_trace
  · simpa using hne
  · simpa using hle

/-- C7: with a non-empty location-to-values mapping of at most 100
entries, each of the four add-partitions operations issues exactly one
bulk-create request whose record list holds exactly one record per
mapping entry, in mapping order, and the records' storage locations are
exactly the mapping's keys. -/
theorem c7_one_record_per_key (sanitize_table_name : String → String)
    (client : BatchCreateRequest → BatchResponse) (db tbl : String)
    (pv : List (String × List String)) (cid : Option String)
    (hne : pv ≠ []) (hle : pv.length ≤ 100) :
    ((add_csv_partitions sanitize_table_name client db tbl pv cid).1 =
        [⟨cid, db, sanitize_table_name tbl,
          pv.map fun kv => _csv_partition_definition kv.1 kv.2⟩]
      ∧ ((pv.map fun kv => _csv_partition_definition kv.1 kv.2).map
          PartitionInput.Location) = pv.map Prod.fst
      ∧ (pv.map fun kv => _csv_partition_definition kv.1 kv.2).length = pv.length)
    ∧ ((add_json_partitions sanitize_table_name client db tbl pv cid).1 =
        [⟨cid, db, sanitize_table_name tbl,
          pv.map fun kv => _json_partition_definition kv.1 kv.2⟩]
      ∧ ((pv.map fun kv => _json_partition_definition kv.1 kv.2).map
          PartitionInput.Location) = pv.map Prod.fst
      ∧ (pv.map fun kv => _json_partition_definition kv.1 kv.2).length = pv.length)
    ∧ ((add_parquet_partitions sanitize_table_name client db tbl pv cid).1 =
        [⟨cid, db, sanitize_table_name tbl,
          pv.map fun kv => _parquet_partition_definition kv.1 kv.2⟩]
      ∧ ((pv.map fun kv => _parquet_partition_definition kv.1 kv.2).map
          PartitionInput.Location) = pv.map Prod.fst
      ∧ (pv.map fun kv => _parquet_partition_definition kv.1 kv.2).length = pv.length)
    ∧ ((add_orc_partitions sanitize_table_name client db tbl pv cid).1 =
        [⟨cid, db, sanitize_table_name tbl,
          pv.map fun kv => _orc_partition_definition kv.1 kv.2⟩]
      ∧ ((pv.map fun kv => _orc_partition_definition kv.1 kv.2).map
          PartitionInput.Location) = pv.map Prod.fst
      ∧ (pv.map fun kv => _orc_partition_definition kv.1 kv.2).length = pv.length) := by
  have hguard : ¬(pv.isEmpty = true) := by
    cases pv with
    | nil => exact absurd rfl hne
    | cons a l => simp
  refine ⟨⟨?_, _map_location "csv" pv, by simp⟩,
    ⟨?_, _map_location "json" pv, by simp⟩,
    ⟨?_, _map_location "parquet" pv, by simp⟩,
    ⟨?_, _map_location "orc" pv, by simp⟩⟩
  · unfold add_csv_partitions
    exact _add_partitions_map_single client db (sanitize_table_name tbl) pv cid
      _csv_partition_definition hne hle
  · unfold add_json_partitions
    exact _add_partitions_map_single client db (sanitize_table_name tbl) pv cid
      _json_partition_definition hne hle
  · unfold add_parquet_partitions
    rw [if_neg hguard]
    exact _add_partitions_map_single client db (sanitize_table_name tbl) pv cid
      _parquet_partition_definition hne hle
  · unfold add_orc_partitions
    rw [if_neg hguard]
    exact _add_partitions_map_single client db (sanitize_table_name tbl) pv cid
      _orc_partition_definition hne hle

/-- The two-entry mapping of the end-to-end scenario. -/
def wMapping : List (String × List String) :=
  [("s3://b/y=2020/m=10/", ["2020", "10"]), ("s3://b/y=2020/m=11/", ["2020", "11"])]

theorem c7_one_record_per_key_witness :
    (add_csv_partitions (fun s => s) wClientNoErrors "db" "t" wMapping none).1 =
      [⟨none, "db", "t", wMapping.map fun kv => _csv_partition_definition kv.1 kv.2⟩] :=
  (c7_one_record_per_key (fun s => s) wClientNoErrors "db" "t" wMapping none
    (by decide) (by decide)).1.1

/-- C6: calling `add_column` with a column type outside the supported set
yields the local validation error with an empty call trace — neither the
get-table nor the update-table call is issued. -/
theorem c6_invalid_column_type (supported_types : List String)
    (get_table : GetTableRequest → GetTableResponse)
    (update_table : UpdateTableRequest → UpdateTableResponse)
    (db tbl column_name column_type : String) (column_comment : Option String)
    (cid : Option String) (h : column_type ∉ supported_types) :
    add_column supported_types get_table update_table db tbl column_name
      column_type column_comment cid =
      ([], ColumnOutcome.invalidArgumentValue column_type) := by
  have hc : _check_column_type supported_types column_type = false := by
    unfold _check_column_type
    simpa using h
  unfold add_column
  rw [if_neg (by rw [hc]; exact Bool.false_ne_true)]

/-- A small supported-type set for the concrete evaluations. -/
def wSupported : List String := ["bigint", "double", "int", "string"]

/-- A get-table oracle returning a one-column table named `tbl0` with one
opaque server-managed field. -/
def wGetTable : GetTableRequest → GetTableResponse :=
  fun _ => ⟨"tbl0", ⟨[⟨"c0", "int", none⟩]⟩, [("CreatedBy", "someone")]⟩

/-- An update-table oracle answering without an `Errors` key. -/
def wUpdateOk : UpdateTableRequest → UpdateTableResponse := fun _ => ⟨none⟩

theorem c6_invalid_column_type_witness :
    add_column wSupported wGetTable wUpdateOk "db" "tbl0" "c1" "bogus" none none =
      ([], ColumnOutcome.invalidArgumentValue "bogus") :=
  c6_invalid_column_type wSupported wGetTable wUpdateOk "db" "tbl0" "c1" "bogus"
    none none (by decide)

/-- Unfolding of `add_column` for a supported column type: the two calls
issued and the outcome decided by the update response. -/
theorem add_column_valid_eq (supported_types : List String)
    (get_table : GetTableRequest → GetTableResponse)
    (update_table : UpdateTableRequest → UpdateTableResponse)
    (db tbl cname ctype : String) (ccomment : Option String)
    (cid : Option String)
    (hc : _check_column_type supported_types ctype = true) :
    add_column supported_types get_table update_table db tbl cname ctype
      ccomment cid =
      ([CatalogApiCall.getTable ⟨cid, db, tbl⟩,
        CatalogApiCall.updateTable ⟨cid, db,
          ⟨(get_table ⟨cid, db, tbl⟩).Name,
            ⟨(get_table ⟨cid, db, tbl⟩).StorageDescriptor.Columns ++
              [⟨cname, ctype, ccomment⟩]⟩⟩⟩],
        if _column_raises (update_table ⟨cid, db,
            ⟨(get_table ⟨cid, db, tbl⟩).Name,
              ⟨(get_table ⟨cid, db, tbl⟩).StorageDescriptor.Columns ++
                [⟨cname, ctype, ccomment⟩]⟩⟩⟩) then
          ColumnOutcome.serviceApiError ((update_table ⟨cid, db,
            ⟨(get_table ⟨cid, db, tbl⟩).Name,
              ⟨(get_table ⟨cid, db, tbl⟩).StorageDescriptor.Columns ++
                [⟨cname, ctype, ccomment⟩]⟩⟩⟩).Errors.getD [])
        else ColumnOutcome.ok) := by
  unfold add_column
  rw [if_pos hc]
  rfl

/-- C8: for a supported column type, `add_column` issues the get-table
call followed by one update-table call whose submitted column list is
exactly the fetched table's ordered column list with the new column
descriptor appended at the end. -/
theorem c8_append_column (supported_types : List String)
    (get_table : GetTableRequest → GetTableResponse)
    (update_table : UpdateTableRequest → UpdateTableResponse)
    (db tbl cname ctype : String) (ccomment : Option String)
    (cid : Option String) (h : ctype ∈ supported_types) :
    (add_column supported_types get_table update_table db tbl cname ctype
        ccomment cid).1 =
      [CatalogApiCall.getTable ⟨cid, db, tbl⟩,
        CatalogApiCall.updateTable ⟨cid, db,
          ⟨(get_table ⟨cid, db, tbl⟩).Name,
            ⟨(get_table ⟨cid, db, tbl⟩).StorageDescriptor.Columns ++
              [⟨cname, ctype, ccomment⟩]⟩⟩⟩] := by
  have hc : _check_column_type supported_types ctype = true := by
    unfold _check_column_type
    simpa using h
  rw [add_column_valid_eq supported_types get_table update_table db tbl cname
    ctype ccomment cid hc]

theorem c8_append_column_witness :
    (add_column wSupported wGetTable wUpdateOk "db" "tbl0" "c1" "int" none
        none).1 =
      [CatalogApiCall.getTable ⟨none, "db", "tbl0"⟩,
        CatalogApiCall.updateTable ⟨none, "db",
          ⟨"tbl0", ⟨[⟨"c0", "int", none⟩, ⟨"c1", "int", none⟩]⟩⟩⟩] :=
  c8_append_column wSupported wGetTable wUpdateOk "db" "tbl0" "c1" "int" none
    none (by decide)

/-- An error with an `ErrorDetail` carrying an `ErrorCode` triggers the
column-path raise probe. -/
theorem _has_error_code_eq_true (e : GlueError) (d : GlueErrorDetail)
    (hd : e.ErrorDetail = some d) (hc : d.ErrorCode.isSome = true) :
    _has_error_code e = true := by
  unfold _has_error_code
  rw [hd]
  exact hc

/-- An update response with a reported error carrying an `ErrorCode`
satisfies the raise condition of `add_column`. -/
theorem _column_raises_eq_true_of_mem (res : UpdateTableResponse)
    (e : GlueError) (he : e ∈ res.Errors.getD [])
    (hcode : _has_error_code e = true) : _column_raises res = true := by
  unfold _column_raises
  cases hE : res.Errors with
  | none => rw [hE] at he; simp at he
  | some errs =>
    rw [hE] at he
    simp only [Option.getD_some] at he
    have h1 : errs.isEmpty = false := by
      cases errs with
      | nil => simp at he
      | cons a l => rfl
    have h2 : errs.any _has_error_code = true := List.any_eq_true.mpr ⟨e, he, hcode⟩
    show (!errs.isEmpty && errs.any _has_error_code) = true
    rw [h1, h2]
    rfl

/-- C9: `add_column` tolerates no already-exists condition: whenever the
update response reports an error carrying a recognizable error code — the
sentinel `"AlreadyExistsException"` included — the call aborts with
`ServiceApiError` carrying the response's raw error list. -/
theorem c9_column_no_exemption (supported_types : List String)
    (get_table : GetTableRequest → GetTableResponse)
    (update_table : UpdateTableRequest → UpdateTableResponse)
    (db tbl cname ctype : String) (ccomment : Option String)
    (cid : Option String) (hvalid : ctype ∈ supported_types)
    (herr : ∃ e ∈ (update_table ⟨cid, db,
        ⟨(get_table ⟨cid, db, tbl⟩).Name,
          ⟨(get_table ⟨cid, db, tbl⟩).StorageDescriptor.Columns ++
            [⟨cname, ctype, ccomment⟩]⟩⟩⟩).Errors.getD [],
      ∃ d, e.ErrorDetail = some d ∧ d.ErrorCode.isSome = true) :
    (add_column supported_types get_table update_table db tbl cname ctype
        ccomment cid).2 =
      ColumnOutcome.serviceApiError
        ((update_table ⟨cid, db,
          ⟨(get_table ⟨cid, db, tbl⟩).Name,
            ⟨(get_table ⟨cid, db, tbl⟩).StorageDescriptor.Columns ++
              [⟨cname, ctype, ccomment⟩]⟩⟩⟩).Errors.getD []) := by
  have hc : _check_column_type supported_types ctype = true := by
    unfold _check_column_type
    simpa using hvalid
  rw [add_column_valid_eq supported_types get_table update_table db tbl cname
    ctype ccomment cid hc]
  obtain ⟨e, he, d, hd, hcode⟩ := herr
  rw [if_pos (_column_raises_eq_true_of_mem _ e he
    (_has_error_code_eq_true e d hd hcode))]

/-- An update-table oracle reporting one already-exists error on every
request. -/
def wUpdateAE : UpdateTableRequest → UpdateTableResponse :=
  fun _ => ⟨some [wErrAE]⟩

theorem c9_column_no_exemption_witness :
    (add_column wSupported wGetTable wUpdateAE "db" "tbl0" "c1" "int" none
        none).2 =
      ColumnOutcome.serviceApiError [wErrAE] :=
  c9_column_no_exemption wSupported wGetTable wUpdateAE "db" "tbl0" "c1" "int"
    none none (by decide)
    ⟨wErrAE, by decide, ⟨some "AlreadyExistsException"⟩, rfl, rfl⟩

/-- Every request issued by `_add_partitions` carries the table name it
was handed. -/
theorem _add_partitions_mem_table
    (client : BatchCreateRequest → BatchResponse) (db tbl : String)
    (inputs : List PartitionInput) (cid : Option String) :
    ∀ req ∈ (_add_partitions client db tbl inputs cid).1,
      req.TableName = tbl := by
  unfold _add_partitions
  exact _add_partitions_loop_mem_table client db tbl cid (chunkify 100 inputs)

/-- C10: every bulk-create request issued by any of the four public
add-partitions operations carries the sanitized table name
`sanitize_table_name tbl`, whereas `add_column` addresses both its
get-table call and — provided the fetched table's name echoes the request
— its update-table call with the caller's table name `tbl` itself, never
applying the sanitizer. -/
theorem c10_sanitize_partitions_only (sanitize_table_name : String → String)
    (client : BatchCreateRequest → BatchResponse)
    (supported_types : List String)
    (get_table : GetTableRequest → GetTableResponse)
    (update_table : UpdateTableRequest → UpdateTableResponse)
    (db tbl : String) (pv : List (String × List String)) (cid : Option String)
    (cname ctype : String) (ccomment : Option String)
    (hecho : (get_table ⟨cid, db, tbl⟩).Name = tbl) :
    (∀ req ∈ (add_csv_partitions sanitize_table_name client db tbl pv cid).1,
        req.TableName = sanitize_table_name tbl)
    ∧ (∀ req ∈ (add_json_partitions sanitize_table_name client db tbl pv cid).1,
        req.TableName = sanitize_table_name tbl)
    ∧ (∀ req ∈ (add_parquet_partitions sanitize_table_name client db tbl pv cid).1,
        req.TableName = sanitize_table_name tbl)
    ∧ (∀ req ∈ (add_orc_partitions sanitize_table_name client db tbl pv cid).1,
        req.TableName = sanitize_table_name tbl)
    ∧ (∀ call ∈ (add_column supported_types get_table update_table db tbl
          cname ctype ccomment cid).1,
        (∀ r, call = CatalogApiCall.getTable r → r.Name = tbl)
        ∧ (∀ r, call = CatalogApiCall.updateTable r →
            r.TableInput.Name = tbl)) := by
  refine ⟨?_, ?_, ?_, ?_, ?_⟩
  · intro req hreq
    exact _add_partitions_mem_table client db (sanitize_table_name tbl) _ cid
      req hreq
  · intro req hreq
    exact _add_partitions_mem_table client db (sanitize_table_name tbl) _ cid
      req hreq
  · intro req hreq
    unfold add_parquet_partitions at hreq
    by_cases hp : pv.isEmpty = true
    · rw [if_pos hp] at hreq
      simp at hreq
    · rw [if_neg hp] at hreq
      exact _add_partitions_mem_table client db (sanitize_table_name tbl) _ cid
        req hreq
  · intro req hreq
    unfold add_orc_partitions at hreq
    by_cases hp : pv.isEmpty = true
    · rw [if_pos hp] at hreq
      simp at hreq
    · rw [if_neg hp] at hreq
      exact _add_partitions_mem_table client db (sanitize_table_name tbl) _ cid
        req hreq
  · by_cases hc : _check_column_type supported_types ctype = true
    · rw [add_column_valid_eq supported_types get_table update_table db tbl
        cname ctype ccomment cid hc]
      intro call hcall
      rcases List.mem_cons.mp hcall with h1 | h2
      · constructor
        · intro r hr
          rw [h1] at hr
          injection hr with hr
          rw [← hr]
        · intro r hr
          rw [h1] at hr
          simp at hr
      · have h2e : call = CatalogApiCall.updateTable ⟨cid, db,
            ⟨(get_table ⟨cid, db, tbl⟩).Name,
              ⟨(get_table ⟨cid, db, tbl⟩).StorageDescriptor.Columns ++
                [⟨cname, ctype, ccomment⟩]⟩⟩⟩ := List.mem_singleton.mp h2
        constructor
        · intro r hr
          rw [h2e] at hr
          simp at hr
        · intro r hr
          rw [h2e] at hr
          injection hr with hr
          rw [← hr]
          exact hecho
    · have hcf : _check_column_type supported_types ctype = false := by
        cases hb : _check_column_type supported_types ctype
        · rfl
        · exact absurd hb hc
      unfold add_column
      rw [if_neg (by rw [hcf]; exact Bool.false_ne_true)]
      intro call hcall
      simp at hcall

theorem c10_sanitize_partitions_only_witness :
    (∀ req ∈ (add_csv_partitions (fun s => s ++ "_s") wClientNoErrors "db"
        "tbl0" wMapping none).1, req.TableName = "tbl0" ++ "_s")
    ∧ (∀ call ∈ (add_column wSupported wGetTable wUpdateOk "db" "tbl0" "c1"
          "int" none none).1,
        (∀ r, call = CatalogApiCall.getTable r → r.Name = "tbl0")
        ∧ (∀ r, call = CatalogApiCall.updateTable r →
            r.TableInput.Name = "tbl0")) :=
  ⟨(c10_sanitize_partitions_only (fun s => s ++ "_s") wClientNoErrors
      wSupported wGetTable wUpdateOk "db" "tbl0" wMapping none "c1" "int" none
      (by decide)).1,
    (c10_sanitize_partitions_only (fun s => s ++ "_s") wClientNoErrors
      wSupported wGetTable wUpdateOk "db" "tbl0" wMapping none "c1" "int" none
      (by decide)).2.2.2.2⟩
